import Mathlib

/-!
Shallow embedding of `st_comp_blocks/__init__.py` (classes `SQL`, `CBStorage`,
`ComputationalBlock`, `CBUpdate`) and proofs about the claims of the
specification.  Python byte strings are modelled as `List Nat`, json arrays of
patch properties as `List Nat` (element values are opaque to the code), ids and
timestamps as `Nat`.
-/

set_option autoImplicit false

namespace StCompBlocks

/-! ## ComputationalBlock: serialization model

`ComputationalBlock.get_json` (source lines 536-553) emits a dict with keys
`__classname__`, `__version__`, `__commit__`, `id`, `id_history`, `time`
(the base class has `cb_props = set([])`, so no nested objects are emitted),
built in that fixed insertion order; `json.dumps` of two such dicts is equal
iff the dicts are equal field by field, which is what `RecJson` equality
captures.  A record read back from the store may additionally carry keys that
the target class does not recognise; those are modelled by `extraKeys`. -/

structure RecJson where
  classname : String
  version : String × Nat × Nat × Nat
  commit : String
  id : Option Nat
  idHistory : List Nat
  time : Option Nat
  extraKeys : List String
deriving DecidableEq

/-- State of a base-class `ComputationalBlock` (source lines 386-401):
`id`, `id_history`, `time`, and the patch-property bookkeeping
(`getattr(self, name)` sequences and `_last_patches`).  The `storage` and
`_updates` fields take no part in any claim. -/
structure CB where
  id : Option Nat
  idHistory : List Nat
  time : Option Nat
  seqs : String → List Nat
  lastPatches : String → Nat

/-- `ComputationalBlock.__init__`: `id = None`, `id_history = []`,
`time = None`, `_last_patches = {k: 0 for k in patch_props}`. -/
def mkCB : CB :=
  { id := none, idHistory := [], time := none,
    seqs := fun _ => [], lastPatches := fun _ => 0 }

/-- Declared type tag `"%s.%s" % (cls.__module__, cls.__name__)` of the base
class. -/
def cbClassName : String := "st_comp_blocks.ComputationalBlock"

/-- `ComputationalBlock.get_version` returns `["", 0, 0, 0]`. -/
def get_version : String × Nat × Nat × Nat := ("", 0, 0, 0)

/-- `ComputationalBlock.get_commit` returns `""`. -/
def get_commit : String := ""

/-- `ComputationalBlock.get_json` for the base class (source lines 536-553). -/
def get_json (b : CB) : RecJson :=
  { classname := cbClassName
    version := get_version
    commit := get_commit
    id := b.id
    idHistory := b.idHistory
    time := b.time
    extraKeys := [] }

/-- `ComputationalBlock.get_binary` returns `b""`. -/
def get_binary (_b : CB) : List Nat := []

/-- Warnings emitted by `from_json_binary`: the declared-type mismatch warning
(source lines 505-506) and the unrecognised-key warning (source line 513). -/
inductive LoadWarning where
  | classMismatch (declared expected : String)
  | ignoreKey (key : String)
deriving DecidableEq

/-- `ComputationalBlock.from_json_binary` (source lines 497-528) for the base
class (`cb_props` is empty, so the `full` expansion loop does nothing and the
`full` flag is dropped; `block_binary` is never read by the source method).
Returns the emitted warnings together with the decoded object, or the
`ValueError` raised under `strict` on a declared-type mismatch.  Of the json
keys, `id`, `id_history` and `time` hit existing attributes and are assigned;
`__classname__`, `__version__`, `__commit__` are silently skipped; every other
key only produces an "ignore key" warning. -/
def from_json_binary (strict : Bool) (j : RecJson) (_bin : List Nat) :
    Except String (List LoadWarning × CB) :=
  if j.classname ≠ cbClassName ∧ strict then
    Except.error ("Trying to load class " ++ j.classname ++ " with " ++ cbClassName)
  else
    let w1 := if j.classname ≠ cbClassName then
      [LoadWarning.classMismatch j.classname cbClassName] else []
    let w2 := j.extraKeys.map LoadWarning.ignoreKey
    Except.ok (w1 ++ w2,
      { mkCB with id := j.id, idHistory := j.idHistory, time := j.time })

/-- `ComputationalBlock.test_computational_block` (source lines 487-491):
encode, decode into a fresh instance with the default `strict=True`, re-encode,
and compare both the json text and the binary payload.  An exception escaping
`from_json_binary` would propagate, i.e. the test would not return `True`;
that case is modelled as `false`. -/
def test_computational_block (b : CB) : Bool :=
  let j := get_json b
  let bin := get_binary b
  match from_json_binary true j bin with
  | Except.error _ => false
  | Except.ok (_, nb) => decide (get_json nb = j) && decide (get_binary nb = bin)

/-! ## CBStorage: table model and whole-record save/load

`CBStorage.create_storage` (source lines 347-358) creates a table with columns
`id` (bigserial primary key, issued by an increasing sequence starting at 1),
`json`, `bin` and the three timestamp columns.  A row is modelled by
`StoreRow`, the table by a partial map from id plus the sequence counter. -/

structure StoreRow where
  json : RecJson
  bin : List Nat
  createDate : Nat
  updateDate : Nat
  readDate : Nat
deriving DecidableEq

structure Storage where
  rows : Nat → Option StoreRow
  nextId : Nat

/-- The freshly created table: no rows, id sequence starting at 1. -/
def emptyStorage : Storage := { rows := fun _ => none, nextId := 1 }

/-- A storage is well formed when every stored id was issued by the sequence,
i.e. lies below the next id to be issued.  `create_storage` establishes this
and every operation preserves it. -/
def Storage.WF (st : Storage) : Prop :=
  ∀ i r, st.rows i = some r → i < st.nextId

/-- `CBStorage.save` (source lines 314-341): with `block_id=None` it inserts a
new row (all three timestamps defaulting to the current time) and returns the
freshly issued id; with `block_id` given it updates `json`, `bin` and
`update_date` of that row in place (an update of an absent id changes nothing)
and returns the same id.  `now` stands for the server's current timestamp. -/
def storage_save (st : Storage) (j : RecJson) (b : List Nat)
    (blockId : Option Nat) (now : Nat) : Nat × Storage :=
  match blockId with
  | none =>
      (st.nextId,
        { rows := fun i => if i = st.nextId then
            some { json := j, bin := b, createDate := now, updateDate := now,
                   readDate := now }
          else st.rows i,
          nextId := st.nextId + 1 })
  | some k =>
      (k, { st with rows := fun i => if i = k then
              (st.rows i).map (fun r => { r with json := j, bin := b, updateDate := now })
            else st.rows i })

/-- Columns of the table created by `create_storage` (source lines 347-358). -/
def storageColumns : List String :=
  ["id", "json", "bin", "create_date", "update_date", "read_date"]

/-- A projection in `CBStorage._load`'s select is valid iff it is `*` or a
column of the schema; any other name makes the whole two-statement query fail
(undefined column), which also rolls back the `read_date` update. -/
def loadQueryOk (what : String) : Bool :=
  what = "*" || storageColumns.contains what

/-- `CBStorage._load` (source lines 214-222): stamps `read_date` on the row
and selects `what` from it; raises `ValueError` when no row has the id, and
fails outright when `what` names a column absent from the schema.  The
projection to the requested columns is elided: the selected row is returned
whole. -/
def load_what (st : Storage) (what : String) (blockId : Nat) (now : Nat) :
    Except String (StoreRow × Storage) :=
  if ¬ loadQueryOk what then
    Except.error ("UndefinedColumn " ++ what)
  else
    match st.rows blockId with
    | none => Except.error "No such block_id"
    | some r =>
        Except.ok ({ r with readDate := now },
          { st with rows := fun i => if i = blockId then some { r with readDate := now }
              else st.rows i })

/-- `CBStorage.load_json` (source lines 224-225). -/
def load_json (st : Storage) (blockId : Nat) (now : Nat) :
    Except String (StoreRow × Storage) :=
  load_what st "json" blockId now

/-- `CBStorage.load_binary` (source lines 227-228): note the projection is the
string `"binary"`, not the schema's column `"bin"`. -/
def load_binary (st : Storage) (blockId : Nat) (now : Nat) :
    Except String (StoreRow × Storage) :=
  load_what st "binary" blockId now

/-! ## ComputationalBlock: save lifecycle -/

/-- `ComputationalBlock._pre_save` (source lines 444-449): on a non-destructive
save (`update=False`) of an object that already has an id, archive the id into
`id_history` and clear it, forcing the subsequent store call to insert. -/
def pre_save (update : Bool) (b : CB) : Option Nat × CB :=
  match b.id, update with
  | some k, false => (none, { b with idHistory := b.idHistory ++ [k], id := none })
  | i, _ => (i, b)

/-- `ComputationalBlock._update_last_patches` (source lines 410-415):
re-baseline `_last_patches[name]` to the current local sequence length for
each name in `names`. -/
def update_last_patches (names : List String) (b : CB) : CB :=
  { b with lastPatches := fun k =>
      if k ∈ names then (b.seqs k).length else b.lastPatches k }

/-- One `ComputationalBlock.save` call (source lines 464-470), as a step of
the lifecycle: `_pre_save`, `_update_last_patches()` over the declared patch
properties `pp`, then the guarded `storage.save`.  `remok` tells whether the
remote step succeeds; when it fails the exception propagates after the store
rolled the statement back, so the store is unchanged while the in-memory
object keeps the effects of `_pre_save` and `_update_last_patches`. -/
structure SaveOp where
  update : Bool
  remok : Bool
  now : Nat

def save_step (pp : List String) (s : CB × Storage) (op : SaveOp) : CB × Storage :=
  let pres := pre_save op.update s.1
  let b2 := update_last_patches pp pres.2
  if op.remok then
    let saved := storage_save s.2 (get_json b2) (get_binary b2) pres.1 op.now
    ({ b2 with id := some saved.1 }, saved.2)
  else
    (b2, s.2)

/-- A sequence of `save` calls on a block constructed by
`ComputationalBlock.__init__` against a given storage. -/
def run_saves (pp : List String) (st : Storage) (ops : List SaveOp) : CB × Storage :=
  ops.foldl (save_step pp) (mkCB, st)

/-! ## ComputationalBlock: patch-property bookkeeping -/

/-- `ComputationalBlock.get_patch_props_json(updates_only=True)` (source lines
403-408), entry for a patch property `name`:
`getattr(self, name)[_last_patches[name]:]`. -/
def get_patch_props_updates (b : CB) (name : String) : List Nat :=
  (b.seqs name).drop (b.lastPatches name)

/-- `ComputationalBlock._set_patch_props(patches, updates_only=True)` (source
lines 417-425): extend each named local sequence with its update. -/
def set_patch_props_updates (patches : String → List Nat) (names : List String)
    (b : CB) : CB :=
  { b with seqs := fun k => if k ∈ names then b.seqs k ++ patches k else b.seqs k }

/-- Local bookkeeping of `ComputationalBlock.push_patch_props` (source lines
427-433) once the store call succeeded: `_update_last_patches(names)`; the
local sequences themselves are untouched. -/
def push_patch_props_local (names : List String) (b : CB) : CB :=
  update_last_patches names b

/-- `ComputationalBlock.pull_patch_props` (source lines 435-442) against the
store-side arrays `stored`: the server returns, per name,
`jsonb_path_query_array(json->name, '$[lp to LAST]')` — the stored suffix from
position `_last_patches[name]` on — which `_set_patch_props` appends to the
local sequence before `_update_last_patches` re-baselines. -/
def pull_patch_props (stored : String → List Nat) (names : List String)
    (b : CB) : CB :=
  update_last_patches names
    (set_patch_props_updates (fun k => (stored k).drop (b.lastPatches k)) names b)

/-- Concrete store-side patch arrays used to instantiate theorems. -/
def demoStored : String → List Nat :=
  fun k => if k = "hist" then [1, 2, 3, 4] else []

/-- A concrete block whose local `hist` equals the first two stored elements,
with `_last_patches` at 2. -/
def demoCB : CB :=
  { mkCB with
    seqs := fun k => if k = "hist" then [1, 2] else [],
    lastPatches := fun k => if k = "hist" then 2 else 0 }

/-! ## CBStorage: patch push over the guarded SQL transaction

`CBStorage.push_patch_props` (source lines 250-270) builds one multi-statement
query: for every property with a non-empty update, first a
`select check_patch(lp, jsonb_array_length(json->name), name) from t where
id=block_id;` and then, after all checks, an
`update t set json=jsonb_set(json, name, json->name || patch) where
id=block_id;`.  The whole query runs through `SQL.__call__` in one
transaction: committed only on success, rolled back on the first error. -/

/-- One statement of the query built by `push_patch_props`. -/
inductive Stmt where
  | checkPatch (pl : Nat) (name : String) (blockId : Nat)
  | appendProp (name : String) (vals : List Nat) (blockId : Nat)

/-- Database state seen by patch pushes: whether the server-side `check_patch`
function exists (it is created per database by `create or replace function`,
so it persists across handles and connections), and the table rows, each row
modelled by its json patch-property arrays. -/
structure PatchDB where
  checkPatchInstalled : Bool
  rows : Nat → Option (String → List Nat)

/-- Effect of one `json=jsonb_set(json, ..., json->name || vals)` update on a
row's arrays. -/
def appendRow (name : String) (vals : List Nat) (row : String → List Nat) :
    String → List Nat :=
  fun k => if k = name then row k ++ vals else row k

/-- Execute one statement inside the transaction.  A `check_patch` select
fails when the function does not exist in the database (undefined function —
a planning error, raised whether or not the id matches any row) or when the
stored array length differs from `pl` (the plpgsql function raises, source
lines 171-176); a check addressing an absent id selects zero rows, so the
function is never invoked.  The update appends the new elements to the named
array of the addressed row; an update addressing an absent id changes
nothing. -/
def execStmt (db : PatchDB) : Stmt → Except String PatchDB
  | Stmt.checkPatch pl name blockId =>
      if ¬ db.checkPatchInstalled then
        Except.error "UndefinedFunction check_patch"
      else
        match db.rows blockId with
        | none => Except.ok db
        | some row =>
            if (row name).length = pl then Except.ok db
            else Except.error ("ConsistencyViolation " ++ name)
  | Stmt.appendProp name vals blockId =>
      Except.ok
        { db with
          rows := fun i =>
            if i = blockId then (db.rows i).map (appendRow name vals) else db.rows i }

/-- Execute the statements of one request in order, stopping at the first
error. -/
def execStmts (db : PatchDB) : List Stmt → Except String PatchDB
  | [] => Except.ok db
  | s :: rest =>
      match execStmt db s with
      | Except.ok db2 => execStmts db2 rest
      | Except.error e => Except.error e

/-- `SQL.__call__` (source lines 83-106) running one request as one
transaction.  An empty request string is refused by the driver before
anything executes (`cursor.execute("")` raises a ProgrammingError, "cannot
execute an empty query"), which the wrapper rolls back and re-raises like any
other error.  Otherwise the statements run in order: on success the result is
committed; on the first error the connection is rolled back — the database is
left exactly as before the call — and the error propagates to the caller. -/
def sqlCall (db : PatchDB) (stmts : List Stmt) : Option String × PatchDB :=
  if stmts.isEmpty then
    (some "ProgrammingError cannot execute an empty query", db)
  else
    match execStmts db stmts with
    | Except.ok db2 => (none, db2)
    | Except.error e => (some e, db)

/-- `CBStorage.push_patch_props` (source lines 250-270): drop the properties
with empty updates, then run all the `check_patch` selects followed by all
the append updates in a single guarded call. -/
def push_patch_props (db : PatchDB) (patches : List (String × List Nat))
    (lp : String → Nat) (blockId : Nat) : Option String × PatchDB :=
  let ps := patches.filter (fun p => 0 < p.2.length)
  sqlCall db
    (ps.map (fun p => Stmt.checkPatch (lp p.1) p.1 blockId) ++
     ps.map (fun p => Stmt.appendProp p.1 p.2 blockId))

/-- The elements the patches `ps` append to property `k`, in query order. -/
def updatesFor (ps : List (String × List Nat)) (k : String) : List Nat :=
  match ps with
  | [] => []
  | p :: rest => if p.1 = k then p.2 ++ updatesFor rest k else updatesFor rest k

/-- Storage handle modes (`CBStorage.__init__`, source lines 158-181). -/
inductive Mode where
  | rw
  | ro
deriving DecidableEq

/-- `CBStorage._get_on_connect` + `SQL.connect` (source lines 66-81 and
168-181): connecting a handle in `rw` mode runs the
`create or replace function check_patch(...)` statement against the database;
`ro` mode runs no on-connect statement. -/
def connect_storage (db : PatchDB) (m : Mode) : PatchDB :=
  match m with
  | Mode.rw => { db with checkPatchInstalled := true }
  | Mode.ro => db

/-- A concrete patch database: `check_patch` not yet installed, one row at
id 1 whose every patch array is empty. -/
def freshPatchDB : PatchDB :=
  { checkPatchInstalled := false,
    rows := fun i => if i = 1 then some (fun _ => []) else none }

/-- Concrete row of `installedPatchDB`: `hist` holds two elements. -/
def rowC1 : String → List Nat := fun k => if k = "hist" then [1, 2] else []

/-- A concrete patch database with `check_patch` installed and `rowC1` at
id 1. -/
def installedPatchDB : PatchDB :=
  { checkPatchInstalled := true,
    rows := fun i => if i = 1 then some rowC1 else none }

/-! ## SQL: guarded call and connection lifecycle -/

/-- Connection state of an `SQL` handle: whether the underlying connection is
closed, a generation counter identifying the physical connection, and whether
an uncommitted transaction is pending on it. -/
structure ConnState where
  closed : Bool
  gen : Nat
  pending : Bool
deriving DecidableEq

/-- `SQL.connect` (source lines 66-81): establish a fresh physical connection
(next generation), open and with no pending transaction. -/
def sql_connect (s : ConnState) : ConnState :=
  { closed := false, gen := s.gen + 1, pending := false }

/-- `SQL.__call__` (source lines 83-106): reconnect first only when the
current connection is observed closed (`if self.connection.closed`); then
execute the request, which opens a transaction on the connection.  When the
guarded `db_request` fails — by timeout or any other error — the connection is
rolled back and the error propagates, the connection itself staying open;
otherwise the transaction is committed.  `requestFails` tells whether the
request raises. -/
def sql_call (s : ConnState) (requestFails : Bool) : Option String × ConnState :=
  let s1 := if s.closed then sql_connect s else s
  if requestFails then
    (some "RequestFailed", { s1 with pending := false })
  else
    (none, { s1 with pending := false })

/-! ## CBUpdate: class-agnostic record augmentation -/

/-- Json values of a raw record, as far as the claims inspect them: a leaf or
a nested object. -/
inductive JVal where
  | leaf (n : Nat)
  | node (fields : List (String × JVal))

/-- Python dict assignment `d[k] = v`: replace the value in place when the
key exists (keeping its position), otherwise append the new key at the end. -/
def dictInsert : List (String × JVal) → String → JVal → List (String × JVal)
  | [], k, v => [(k, v)]
  | (k0, v0) :: rest, k, v =>
      if k0 = k then (k0, v) :: rest else (k0, v0) :: dictInsert rest k v

/-- Python dict lookup `d.get(k)`. -/
def dictFind : List (String × JVal) → String → Option JVal
  | [], _ => none
  | (k0, v0) :: rest, k => if k0 = k then some v0 else dictFind rest k

/-- A raw stored record as `CBUpdate` sees it: the json document and the
(possibly NULL) binary payload; the timestamps play no part in the claims
settled against this model and are elided. -/
structure URow where
  json : List (String × JVal)
  bin : Option (List Nat)

/-- The raw-record store `CBUpdate` works against. -/
structure UStorage where
  rows : Nat → Option URow

/-- `CBStorage.load` as used by `CBUpdate.load` (source lines 575-579):
`ValueError` when the id matches no row. -/
def u_load (st : UStorage) (blockId : Nat) : Except String URow :=
  match st.rows blockId with
  | none => Except.error "No such block_id"
  | some r => Except.ok r

/-- `CBStorage.save` with a block id, as used by `CBUpdate.save` (source
lines 581-583): update the row in place; an absent id updates nothing. -/
def u_save (st : UStorage) (blockId : Nat) (j : List (String × JVal))
    (b : Option (List Nat)) : UStorage :=
  { rows := fun i =>
      if i = blockId then (st.rows i).map (fun _ => URow.mk j b) else st.rows i }

/-- In-memory state of a `CBUpdate` (source lines 566-573): bound block id
and the lazily loaded json and binary. -/
structure CBUpdateState where
  blockId : Nat
  json : Option (List (String × JVal))
  binary : Option (List Nat)

/-- The lazy load at the head of `CBUpdate.update` (source lines 586-587):
`if self.json is None and self.binary is None: self.load()`. -/
def cbu_maybe_load (st : UStorage) (c : CBUpdateState) : Except String CBUpdateState :=
  match c.json, c.binary with
  | none, none =>
      (u_load st c.blockId).map (fun r => { c with json := some r.json, binary := r.bin })
  | _, _ => Except.ok c

/-- `CBUpdate.update` (source lines 585-598), with the subclass hook
`make_update` passed in as `makeUpd`, a pure function of the loaded json and
binary (the base class returns the empty dict).  An empty computed update
returns `None` and writes nothing; a non-empty one is stored in the in-memory
json under the key `_update` (the source calls `make_update` a second time
here; being pure it returns the same value) and, when `save` is requested,
the whole record is written back through the store's save. -/
def cbu_update
    (makeUpd : Option (List (String × JVal)) → Option (List Nat) → List (String × JVal))
    (st : UStorage) (c : CBUpdateState) (save : Bool) :
    Except String (Option CBUpdateState × UStorage) :=
  match cbu_maybe_load st c with
  | Except.error e => Except.error e
  | Except.ok c1 =>
      if (makeUpd c1.json c1.binary).isEmpty then Except.ok (none, st)
      else
        match c1.json with
        | none => Except.error "TypeError"
        | some j =>
            let j2 := dictInsert j "_update" (JVal.node (makeUpd c1.json c1.binary))
            let c2 := { c1 with json := some j2 }
            Except.ok (some c2, if save then u_save st c2.blockId j2 c2.binary else st)

/-- A concrete `make_update` hook producing one entry. -/
def demoMakeUpd : Option (List (String × JVal)) → Option (List Nat) →
    List (String × JVal) :=
  fun _ _ => [("note", JVal.leaf 1)]

/-- A concrete loaded `CBUpdate` state on block 1. -/
def demoCBU : CBUpdateState :=
  { blockId := 1, json := some [("a", JVal.leaf 0)], binary := some [] }

/-- A concrete raw-record store holding block 1. -/
def demoUStorage : UStorage :=
  { rows := fun i => if i = 1 then some (URow.mk [("a", JVal.leaf 0)] (some [])) else none }

/-- A concrete stored row, used to instantiate theorems at concrete inputs. -/
def demoRow : StoreRow :=
  { json := get_json mkCB, bin := [], createDate := 0, updateDate := 0, readDate := 0 }

/-- A concrete storage holding `demoRow` at id 1, with the id sequence at 2. -/
def storageOneRow : Storage :=
  { rows := fun i => if i = 1 then some demoRow else none, nextId := 2 }

end StCompBlocks

namespace StCompBlocks

/-- C6: a record whose declared `__classname__` differs from the requested
class raises under `strict=True` and decodes with a class-mismatch warning
under `strict=False`; when the declared type matches, the decode succeeds for
either value of `strict` and no mismatch error or warning is produced. -/
theorem C6_class_mismatch (j : RecJson) (bin : List Nat) :
    (j.classname ≠ cbClassName →
      (∃ e, from_json_binary true j bin = Except.error e) ∧
      (∃ w cb, from_json_binary false j bin = Except.ok (w, cb) ∧
        LoadWarning.classMismatch j.classname cbClassName ∈ w)) ∧
    (j.classname = cbClassName → ∀ strict,
      ∃ w cb, from_json_binary strict j bin = Except.ok (w, cb) ∧
        ∀ d e, LoadWarning.classMismatch d e ∉ w) := by
  constructor
  · intro hne
    refine ⟨⟨"Trying to load class " ++ j.classname ++ " with " ++ cbClassName,
      by simp [from_json_binary, hne]⟩, ?_⟩
    refine ⟨LoadWarning.classMismatch j.classname cbClassName ::
      j.extraKeys.map LoadWarning.ignoreKey,
      { mkCB with id := j.id, idHistory := j.idHistory, time := j.time },
      by simp [from_json_binary, hne], by simp⟩
  · intro heq strict
    refine ⟨j.extraKeys.map LoadWarning.ignoreKey,
      { mkCB with id := j.id, idHistory := j.idHistory, time := j.time },
      by simp [from_json_binary, heq], ?_⟩
    intro d e
    simp

/-- C6 witness at a concrete mismatching record. -/
theorem C6_class_mismatch_witness :
    "other.Class" ≠ cbClassName ∧
    (∃ e, from_json_binary true
      ⟨"other.Class", ("", 0, 0, 0), "", none, [], none, []⟩ [] = Except.error e) :=
  ⟨by decide,
    ((C6_class_mismatch ⟨"other.Class", ("", 0, 0, 0), "", none, [], none, []⟩ []).1
      (by decide)).1⟩

/-- C7: the round-trip self-test of the base class holds for every state:
encoding with `get_json`/`get_binary`, decoding with `from_json_binary` and
re-encoding reproduces both payloads, so `test_computational_block` returns
`True`. -/
theorem C7_round_trip (b : CB) : test_computational_block b = true := by
  simp [test_computational_block, from_json_binary, get_json, get_binary, cbClassName]

lemma pre_save_id_none {b : CB} (u : Bool) (h : b.id = none) :
    pre_save u b = (none, b) := by
  cases u <;> simp [pre_save, h]

lemma pre_save_true (b : CB) : pre_save true b = (b.id, b) := by
  cases h : b.id <;> simp [pre_save, h]

lemma pre_save_false_some {b : CB} {k : Nat} (h : b.id = some k) :
    pre_save false b = (none, { b with idHistory := b.idHistory ++ [k], id := none }) := by
  simp [pre_save, h]

/-- C2: a successful `save(update=False)` on a block whose id is `k` (with row
`k` present in a well-formed storage) assigns the fresh store-issued id
`st.nextId ≠ k`, appends `k` to `id_history`, and writes nothing to row `k`:
its json, binary and all three timestamps are untouched. -/
theorem C2_nondestructive_save (pp : List String) (st : Storage) (b : CB)
    (k now : Nat) (r : StoreRow) (hid : b.id = some k) (hwf : Storage.WF st)
    (hr : st.rows k = some r) :
    (save_step pp (b, st) ⟨false, true, now⟩).1.id = some st.nextId ∧
    st.nextId ≠ k ∧
    (save_step pp (b, st) ⟨false, true, now⟩).1.idHistory = b.idHistory ++ [k] ∧
    (save_step pp (b, st) ⟨false, true, now⟩).2.rows k = st.rows k := by
  have hk : k < st.nextId := hwf k r hr
  have hne : st.nextId ≠ k := fun h => absurd (h ▸ hk) (lt_irrefl _)
  refine ⟨?_, hne, ?_, ?_⟩
  · simp [save_step, pre_save_false_some hid, update_last_patches, storage_save]
  · simp [save_step, pre_save_false_some hid, update_last_patches, storage_save]
  · simp [save_step, pre_save_false_some hid, update_last_patches, storage_save]
    exact fun h => absurd h.symm hne

/-- C2 witness: a concrete block with id 1 saved non-destructively against a
concrete one-row storage. -/
theorem C2_nondestructive_save_witness :
    (save_step [] ({ mkCB with id := some 1 }, storageOneRow) ⟨false, true, 7⟩).1.id
      = some storageOneRow.nextId ∧
    storageOneRow.nextId ≠ 1 ∧
    (save_step [] ({ mkCB with id := some 1 }, storageOneRow) ⟨false, true, 7⟩).1.idHistory
      = ({ mkCB with id := some 1 } : CB).idHistory ++ [1] ∧
    (save_step [] ({ mkCB with id := some 1 }, storageOneRow) ⟨false, true, 7⟩).2.rows 1
      = storageOneRow.rows 1 :=
  C2_nondestructive_save [] storageOneRow { mkCB with id := some 1 } 1 7 demoRow rfl
    (by
      intro i r hir
      simp only [storageOneRow] at hir
      by_cases hi : i = 1
      · simp [storageOneRow, hi]
      · simp [hi] at hir)
    (by simp [storageOneRow])

lemma save_step_id_none (pp : List String) (s : CB × Storage) (op : SaveOp)
    (h : s.1.id = none) (hf : op.remok = false) :
    (save_step pp s op).1.id = none := by
  obtain ⟨u, r, n⟩ := op
  simp only at hf
  subst hf
  simp [save_step, pre_save_id_none u h, update_last_patches, h]

lemma save_step_id_set (pp : List String) (s : CB × Storage) (op : SaveOp)
    (h : s.1.id ≠ none) (hok : op.remok = false → op.update = true) :
    (save_step pp s op).1.id ≠ none := by
  obtain ⟨u, r, n⟩ := op
  cases r
  · have hu : u = true := hok rfl
    subst hu
    simpa [save_step, pre_save_true, update_last_patches] using h
  · simp [save_step, update_last_patches]

lemma foldl_save_id_none (pp : List String) (ops : List SaveOp) :
    ∀ s : CB × Storage, s.1.id = none → (∀ op ∈ ops, op.remok = false) →
      (ops.foldl (save_step pp) s).1.id = none := by
  induction ops with
  | nil => intro s h _; exact h
  | cons op rest ih =>
      intro s h hall
      simp only [List.foldl_cons]
      exact ih _ (save_step_id_none pp s op h (hall op (by simp)))
        (fun o ho => hall o (by simp [ho]))

lemma foldl_save_id_set (pp : List String) (ops : List SaveOp) :
    ∀ s : CB × Storage, s.1.id ≠ none →
      (∀ op ∈ ops, op.remok = false → op.update = true) →
      (ops.foldl (save_step pp) s).1.id ≠ none := by
  induction ops with
  | nil => intro s h _; exact h
  | cons op rest ih =>
      intro s h hall
      simp only [List.foldl_cons]
      exact ih _ (save_step_id_set pp s op h (hall op (by simp)))
        (fun o ho => hall o (by simp [ho]))

lemma save_step_ok_id_set (pp : List String) (s : CB × Storage) (op : SaveOp)
    (h : op.remok = true) : (save_step pp s op).1.id ≠ none := by
  obtain ⟨u, r, n⟩ := op
  simp only at h
  subst h
  simp [save_step, update_last_patches]

/-- C3 counterexample: start from a fresh block, run a successful
`save(update=True)` (the block gets id 1) and then a `save(update=False)`
whose remote step fails.  A successful save occurred in the sequence, yet the
final id is `None`: `_pre_save` archived and cleared the id before the failing
store call, refuting "non-None at all times after the first successful
save". -/
theorem C3_counterexample :
    (∃ op ∈ [SaveOp.mk true true 0, SaveOp.mk false false 0], op.remok = true) ∧
    (run_saves [] emptyStorage [SaveOp.mk true true 0, SaveOp.mk false false 0]).1.id
      = none := by
  constructor
  · exact ⟨SaveOp.mk true true 0, by simp, rfl⟩
  · rfl

/-- C3 amended: the id is `None` from construction up to the first successful
save; after a successful save the id stays set as long as every following
failing save is a plain update — a `save(update=False)` whose remote step
fails clears the id again (after archiving it into `id_history`), so the
original invariant holds only up to that failure mode. -/
theorem C3_amended (pp : List String) (st : Storage) :
    (∀ ops : List SaveOp, (∀ op ∈ ops, op.remok = false) →
      (run_saves pp st ops).1.id = none) ∧
    (∀ (pre : List SaveOp) (op : SaveOp) (post : List SaveOp),
      op.remok = true → (∀ o ∈ post, o.remok = false → o.update = true) →
      (run_saves pp st (pre ++ op :: post)).1.id ≠ none) := by
  constructor
  · intro ops hall
    exact foldl_save_id_none pp ops (mkCB, st) rfl hall
  · intro pre op post hok hpost
    unfold run_saves
    rw [List.foldl_append, List.foldl_cons]
    exact foldl_save_id_set pp post _
      (save_step_ok_id_set pp _ op hok) hpost

/-- C3 amended witness: after one successful save followed by a failing plain
update-save, the id is still set. -/
theorem C3_amended_witness :
    (run_saves [] emptyStorage
      ([] ++ SaveOp.mk true true 0 :: [SaveOp.mk true false 0])).1.id ≠ none :=
  (C3_amended [] emptyStorage).2 [] (SaveOp.mk true true 0) [SaveOp.mk true false 0]
    rfl (by intro o ho _; simp at ho; simp [ho])

/-- C8: patch bookkeeping is pure and consistent.  The outgoing update for
`name` is exactly `local_sequence[name][last_patches[name]:]`; after the local
bookkeeping of a successful push, and likewise after a pull,
`last_patches[name]` equals the local sequence's length; and when the local
sequence is the stored sequence's prefix of length `last_patches[name]`, a
pull appends exactly the stored elements from that position on, making the
local sequence identical to the stored one. -/
theorem C8_patch_bookkeeping (b : CB) (stored : String → List Nat)
    (names : List String) (name : String) (hmem : name ∈ names) :
    get_patch_props_updates b name = (b.seqs name).drop (b.lastPatches name) ∧
    (push_patch_props_local names b).lastPatches name
      = ((push_patch_props_local names b).seqs name).length ∧
    (pull_patch_props stored names b).lastPatches name
      = ((pull_patch_props stored names b).seqs name).length ∧
    (b.seqs name = (stored name).take (b.lastPatches name) →
      (pull_patch_props stored names b).seqs name = stored name) := by
  refine ⟨rfl, ?_, ?_, ?_⟩
  · simp [push_patch_props_local, update_last_patches, hmem]
  · simp [pull_patch_props, update_last_patches, set_patch_props_updates, hmem]
  · intro h
    simp [pull_patch_props, update_last_patches, set_patch_props_updates, hmem]
    rw [h, List.take_append_drop]

/-- C8 witness at a concrete block, property set and stored row. -/
theorem C8_patch_bookkeeping_witness :
    (pull_patch_props demoStored ["hist"] demoCB).seqs "hist" = demoStored "hist" :=
  (C8_patch_bookkeeping demoCB demoStored ["hist"] "hist" (by simp)).2.2.2
    (by simp [demoCB, demoStored, mkCB])

lemma execStmts_append (stmts1 stmts2 : List Stmt) (db : PatchDB) :
    execStmts db (stmts1 ++ stmts2) =
      match execStmts db stmts1 with
      | Except.ok db2 => execStmts db2 stmts2
      | Except.error e => Except.error e := by
  induction stmts1 generalizing db with
  | nil => simp [execStmts]
  | cons s rest ih =>
      simp only [List.cons_append, execStmts]
      cases h : execStmt db s with
      | ok db2 => simp [ih db2]
      | error e => simp

lemma execStmts_checks_ok (lp : String → Nat) (blockId : Nat)
    (db : PatchDB) (row : String → List Nat)
    (hinst : db.checkPatchInstalled = true) (hrow : db.rows blockId = some row)
    (ps : List (String × List Nat))
    (hall : ∀ p ∈ ps, (row p.1).length = lp p.1) :
    execStmts db (ps.map (fun p => Stmt.checkPatch (lp p.1) p.1 blockId)) =
      Except.ok db := by
  induction ps with
  | nil => rfl
  | cons p rest ih =>
      have h1 : execStmt db (Stmt.checkPatch (lp p.1) p.1 blockId) = Except.ok db := by
        simp [execStmt, hinst, hrow, hall p (by simp)]
      simp only [List.map_cons, execStmts, h1]
      exact ih (fun q hq => hall q (by simp [hq]))

lemma execStmts_checks_error (lp : String → Nat) (blockId : Nat)
    (db : PatchDB) (row : String → List Nat)
    (hinst : db.checkPatchInstalled = true) (hrow : db.rows blockId = some row)
    (ps : List (String × List Nat))
    (hbad : ¬ ∀ p ∈ ps, (row p.1).length = lp p.1) :
    ∃ e, execStmts db (ps.map (fun p => Stmt.checkPatch (lp p.1) p.1 blockId)) =
      Except.error e := by
  induction ps with
  | nil => exact absurd (by simp) hbad
  | cons p rest ih =>
      by_cases hp : (row p.1).length = lp p.1
      · have h1 : execStmt db (Stmt.checkPatch (lp p.1) p.1 blockId) = Except.ok db := by
          simp [execStmt, hinst, hrow, hp]
        have hbad2 : ¬ ∀ q ∈ rest, (row q.1).length = lp q.1 := by
          intro hrest
          refine hbad ?_
          intro q hq
          rcases List.mem_cons.mp hq with h | h
          · rw [h]; exact hp
          · exact hrest q h
        obtain ⟨e, he⟩ := ih hbad2
        refine ⟨e, ?_⟩
        simp only [List.map_cons, execStmts, h1]
        exact he
      · refine ⟨"ConsistencyViolation " ++ p.1, ?_⟩
        have h1 : execStmt db (Stmt.checkPatch (lp p.1) p.1 blockId) =
            Except.error ("ConsistencyViolation " ++ p.1) := by
          simp [execStmt, hinst, hrow, hp]
        simp [execStmts, h1]

lemma execStmts_updates (blockId : Nat) (ps : List (String × List Nat)) :
    ∀ (db : PatchDB) (row : String → List Nat), db.rows blockId = some row →
      ∃ db2, execStmts db (ps.map (fun p => Stmt.appendProp p.1 p.2 blockId)) =
          Except.ok db2 ∧
        (∀ i, i ≠ blockId → db2.rows i = db.rows i) ∧
        ∃ row2, db2.rows blockId = some row2 ∧
          ∀ k, row2 k = row k ++ updatesFor ps k := by
  induction ps with
  | nil =>
      intro db row hrow
      exact ⟨db, rfl, fun _ _ => rfl, row, hrow, by simp [updatesFor]⟩
  | cons p rest ih =>
      intro db row hrow
      have hrow1 :
          (PatchDB.mk db.checkPatchInstalled
            (fun i => if i = blockId then (db.rows i).map (appendRow p.1 p.2)
              else db.rows i)).rows blockId = some (appendRow p.1 p.2 row) := by
        simp [hrow]
      obtain ⟨db2, hexec, hother, row2, hrow2, hval⟩ := ih _ _ hrow1
      refine ⟨db2, ?_, ?_, row2, hrow2, ?_⟩
      · simp only [List.map_cons, execStmts, execStmt]
        exact hexec
      · intro i hi
        rw [hother i hi]
        simp [hi]
      · intro k
        rw [hval k]
        by_cases hk : k = p.1
        · simp [appendRow, updatesFor, hk]
        · have hk2 : ¬ p.1 = k := fun h => hk h.symm
          simp [appendRow, updatesFor, hk, hk2]

lemma sqlCall_of_not_empty (db : PatchDB) (stmts : List Stmt)
    (h : stmts.isEmpty = false) :
    sqlCall db stmts =
      match execStmts db stmts with
      | Except.ok db2 => (none, db2)
      | Except.error e => (some e, db) := by
  simp [sqlCall, h]

/-- C1 counterexample: a push in which every named property has an empty
update.  The claim's condition quantifies only over the properties with
non-empty updates, so it holds vacuously and the claim asserts the push
succeeds; the source instead builds an empty query string, which
`cursor.execute` refuses (ProgrammingError), so the call fails — though the
store is indeed left unchanged. -/
theorem C1_counterexample :
    (∀ p ∈ List.filter (fun p => 0 < p.2.length) [("hist", ([] : List Nat))],
      (rowC1 p.1).length = 2) ∧
    (push_patch_props installedPatchDB [("hist", [])] (fun _ => 2) 1).1
      = some "ProgrammingError cannot execute an empty query" ∧
    (push_patch_props installedPatchDB [("hist", [])] (fun _ => 2) 1).2
      = installedPatchDB := by
  refine ⟨?_, rfl, rfl⟩
  intro p hp
  simp at hp

/-- C1 amended: for a push on a stored object through a handle whose database
has the `check_patch` procedure, provided at least one named property has a
non-empty update: the call succeeds iff each non-empty-update property's
stored array length equals `last_patches[name]`; on success the new elements
are appended to each such property of that row (other rows untouched); on any
mismatch the whole call fails and the database is exactly as before the call.
(A push in which every update is empty builds an empty query and fails with a
driver error rather than succeeding — see the counterexample — also leaving
the database unchanged.) -/
theorem C1_push_patch_props_atomic (db : PatchDB)
    (patches : List (String × List Nat)) (lp : String → Nat) (blockId : Nat)
    (row : String → List Nat)
    (hinst : db.checkPatchInstalled = true) (hrow : db.rows blockId = some row)
    (hne : patches.filter (fun p => 0 < p.2.length) ≠ []) :
    ((push_patch_props db patches lp blockId).1 = none ↔
      ∀ p ∈ patches.filter (fun p => 0 < p.2.length), (row p.1).length = lp p.1) ∧
    ((push_patch_props db patches lp blockId).1 = none →
      (∀ i, i ≠ blockId →
        (push_patch_props db patches lp blockId).2.rows i = db.rows i) ∧
      ∃ row2, (push_patch_props db patches lp blockId).2.rows blockId = some row2 ∧
        ∀ k, row2 k = row k ++
          updatesFor (patches.filter (fun p => 0 < p.2.length)) k) ∧
    ((push_patch_props db patches lp blockId).1 ≠ none →
      (push_patch_props db patches lp blockId).2 = db) := by
  have hse : ((patches.filter (fun p => 0 < p.2.length)).map
      (fun p => Stmt.checkPatch (lp p.1) p.1 blockId) ++
      (patches.filter (fun p => 0 < p.2.length)).map
      (fun p => Stmt.appendProp p.1 p.2 blockId)).isEmpty = false := by
    obtain ⟨p, rest, hps⟩ := List.exists_cons_of_ne_nil hne
    simp [hps]
  by_cases hall :
      ∀ p ∈ patches.filter (fun p => 0 < p.2.length), (row p.1).length = lp p.1
  · obtain ⟨db2, hexec, hother, row2, hrow2, hval⟩ :=
      execStmts_updates blockId (patches.filter (fun p => 0 < p.2.length)) db row hrow
    have hrun : push_patch_props db patches lp blockId = (none, db2) := by
      simp only [push_patch_props, sqlCall_of_not_empty _ _ hse, execStmts_append,
        execStmts_checks_ok lp blockId db row hinst hrow _ hall, hexec]
    rw [hrun]
    refine ⟨iff_of_true rfl hall, ?_, by simp⟩
    intro _
    exact ⟨hother, row2, hrow2, hval⟩
  · obtain ⟨e, he⟩ := execStmts_checks_error lp blockId db row hinst hrow _ hall
    have hrun : push_patch_props db patches lp blockId = (some e, db) := by
      simp only [push_patch_props, sqlCall_of_not_empty _ _ hse, execStmts_append, he]
    rw [hrun]
    refine ⟨iff_of_false (by simp) hall, ?_, fun _ => rfl⟩
    intro h
    exact absurd h (by simp)

/-- C1 witness: pushing one new element onto `hist` (stored length 2, caller's
`last_patches` 2) at a concrete installed database succeeds. -/
theorem C1_push_patch_props_atomic_witness :
    (push_patch_props installedPatchDB [("hist", [9])] (fun _ => 2) 1).1 = none :=
  ((C1_push_patch_props_atomic installedPatchDB [("hist", [9])] (fun _ => 2) 1
    rowC1 rfl rfl (by decide)).1).mpr (by decide)

/-- C5 counterexample: `create or replace function` installs `check_patch`
database-wide, so after a read-write handle has connected once, a push issued
through a read-only handle to the same database is not rejected: it succeeds
and modifies the store (here `hist` of row 1 goes from `[]` to `[5]`),
refuting "every attempt to push patch properties through that handle is
rejected". -/
theorem C5_counterexample :
    (push_patch_props (connect_storage (connect_storage freshPatchDB Mode.rw) Mode.ro)
        [("hist", [5])] (fun _ => 0) 1).1 = none ∧
    ((push_patch_props (connect_storage (connect_storage freshPatchDB Mode.rw) Mode.ro)
        [("hist", [5])] (fun _ => 0) 1).2.rows 1).map (fun row => row "hist")
      = some [5] ∧
    ((connect_storage (connect_storage freshPatchDB Mode.rw) Mode.ro).rows 1).map
        (fun row => row "hist") = some [] :=
  ⟨rfl, rfl, rfl⟩

/-- C5 amended: a read-only handle installs nothing at connect time, while a
read-write handle installs `check_patch`; and a push with at least one
non-empty update against a database where `check_patch` has not been installed
(for example a fresh database only ever touched by read-only handles) fails
with an undefined-function error and leaves the store unchanged.  Once any
read-write handle has installed the procedure, pushes through read-only
handles are no longer rejected (see the counterexample). -/
theorem C5_ro_mode_install (db : PatchDB) (patches : List (String × List Nat))
    (lp : String → Nat) (blockId : Nat)
    (hni : db.checkPatchInstalled = false)
    (hne : patches.filter (fun p => 0 < p.2.length) ≠ []) :
    (connect_storage db Mode.ro).checkPatchInstalled = db.checkPatchInstalled ∧
    (connect_storage db Mode.rw).checkPatchInstalled = true ∧
    (push_patch_props db patches lp blockId).1
      = some "UndefinedFunction check_patch" ∧
    (push_patch_props db patches lp blockId).2 = db := by
  obtain ⟨p, rest, hps⟩ := List.exists_cons_of_ne_nil hne
  have h1 : execStmt db (Stmt.checkPatch (lp p.1) p.1 blockId)
      = Except.error "UndefinedFunction check_patch" := by
    simp [execStmt, hni]
  have hse : ((patches.filter (fun p => 0 < p.2.length)).map
      (fun p => Stmt.checkPatch (lp p.1) p.1 blockId) ++
      (patches.filter (fun p => 0 < p.2.length)).map
      (fun p => Stmt.appendProp p.1 p.2 blockId)).isEmpty = false := by
    simp [hps]
  have hrun : push_patch_props db patches lp blockId
      = (some "UndefinedFunction check_patch", db) := by
    simp only [push_patch_props]
    rw [sqlCall_of_not_empty _ _ hse]
    simp only [hps, List.map_cons, List.cons_append, execStmts, h1]
  exact ⟨rfl, rfl, by rw [hrun], by rw [hrun]⟩

/-- C5 witness: a concrete not-yet-installed database and a concrete
non-empty push. -/
theorem C5_ro_mode_install_witness :
    (connect_storage freshPatchDB Mode.ro).checkPatchInstalled
        = freshPatchDB.checkPatchInstalled ∧
    (connect_storage freshPatchDB Mode.rw).checkPatchInstalled = true ∧
    (push_patch_props freshPatchDB [("hist", [5])] (fun _ => 0) 1).1
      = some "UndefinedFunction check_patch" ∧
    (push_patch_props freshPatchDB [("hist", [5])] (fun _ => 0) 1).2 = freshPatchDB :=
  C5_ro_mode_install freshPatchDB [("hist", [5])] (fun _ => 0) 1 rfl (by decide)

/-- C4 counterexample: a failed guarded call on an open connection
(generation 1) rolls the transaction back, but the next call executes on the
very same connection — the generation does not change — because
`SQL.__call__` only reconnects when the connection is observed closed and a
rollback leaves it open.  This refutes "the next call on the same store
handle re-establishes the connection before executing"; the next call does
succeed against a responsive store. -/
theorem C4_counterexample :
    ((sql_call (ConnState.mk false 1 false) true).2.pending = false) ∧
    ((sql_call ((sql_call (ConnState.mk false 1 false) true).2) false).1 = none) ∧
    ((sql_call ((sql_call (ConnState.mk false 1 false) true).2) false).2.gen
      = (sql_call (ConnState.mk false 1 false) true).2.gen) :=
  ⟨rfl, rfl, rfl⟩

/-- C4 amended: after any guarded call — failed or not — the pending
transaction is resolved (rolled back on failure) and the connection is open;
a call re-establishes the connection before executing exactly when it
observes the connection closed, so the call following a rolled-back failure
reuses the same connection and succeeds against a responsive store. -/
theorem C4_rollback_reconnect (s : ConnState) (fails : Bool) :
    ((sql_call s fails).2.gen = if s.closed then s.gen + 1 else s.gen) ∧
    ((sql_call s fails).2.pending = false) ∧
    ((sql_call s fails).2.closed = false) ∧
    ((sql_call (sql_call s true).2 false).1 = none) ∧
    ((sql_call (sql_call s true).2 false).2.gen = (sql_call s true).2.gen) := by
  cases fails <;> by_cases h : s.closed <;>
    simp [sql_call, sql_connect, h]

lemma dictFind_dictInsert_self (d : List (String × JVal)) (k : String) (v : JVal) :
    dictFind (dictInsert d k v) k = some v := by
  induction d with
  | nil => simp [dictInsert, dictFind]
  | cons p rest ih =>
      obtain ⟨k0, v0⟩ := p
      by_cases h : k0 = k
      · simp [dictInsert, dictFind, h]
      · simp [dictInsert, dictFind, h, ih]

lemma dictFind_dictInsert_ne (d : List (String × JVal)) (k k2 : String)
    (v : JVal) (h : k2 ≠ k) :
    dictFind (dictInsert d k v) k2 = dictFind d k2 := by
  induction d with
  | nil =>
      have h2 : ¬ k = k2 := fun he => h he.symm
      simp [dictInsert, dictFind, h2]
  | cons p rest ih =>
      obtain ⟨k0, v0⟩ := p
      have h3 : ¬ k = k2 := fun he => h he.symm
      by_cases h0 : k0 = k
      · simp [dictInsert, dictFind, h0, h3]
      · by_cases h2 : k0 = k2
        · simp [dictInsert, dictFind, h0, h2, h]
        · simp [dictInsert, dictFind, h0, h2, ih]

/-- C9: `CBUpdate.update` on a loaded state computes its update as a pure
function of the (json, binary) pair; an empty update returns `None` and
performs no store write; a non-empty update is added only under the reserved
key `_update` — every other json key keeps its value — and the record is
written back exactly when `save=True` is requested. -/
theorem C9_cbupdate_frame
    (makeUpd : Option (List (String × JVal)) → Option (List Nat) → List (String × JVal))
    (st : UStorage) (c : CBUpdateState) (save : Bool)
    (j : List (String × JVal)) (hj : c.json = some j) :
    (makeUpd c.json c.binary = [] → cbu_update makeUpd st c save = Except.ok (none, st)) ∧
    (makeUpd c.json c.binary ≠ [] →
      ∃ c2, cbu_update makeUpd st c save =
          Except.ok (some c2,
            if save then
              u_save st c.blockId
                (dictInsert j "_update" (JVal.node (makeUpd c.json c.binary))) c.binary
            else st) ∧
        c2.json = some (dictInsert j "_update" (JVal.node (makeUpd c.json c.binary))) ∧
        (∀ k, k ≠ "_update" →
          dictFind (dictInsert j "_update" (JVal.node (makeUpd c.json c.binary))) k
            = dictFind j k) ∧
        dictFind (dictInsert j "_update" (JVal.node (makeUpd c.json c.binary))) "_update"
          = some (JVal.node (makeUpd c.json c.binary))) := by
  have hload : cbu_maybe_load st c = Except.ok c := by
    simp [cbu_maybe_load, hj]
  constructor
  · intro hu
    simp [cbu_update, hload, hu]
  · intro hu
    refine ⟨{ c with json := some (dictInsert j "_update"
      (JVal.node (makeUpd c.json c.binary))) }, ?_, rfl, ?_, ?_⟩
    · have hempty : (makeUpd c.json c.binary).isEmpty = false := by
        cases hul : makeUpd c.json c.binary with
        | nil => exact absurd hul hu
        | cons a l => rfl
      simp [cbu_update, hload, hempty, hj]
      exact hj ▸ hu
    · intro k hk
      exact dictFind_dictInsert_ne j "_update" k _ hk
    · exact dictFind_dictInsert_self j "_update" _

/-- C9 witness: a concrete loaded state, a hook producing one entry, and
`save=True`. -/
theorem C9_cbupdate_frame_witness :
    ∃ c2, cbu_update demoMakeUpd demoUStorage demoCBU true =
        Except.ok (some c2,
          if true then
            u_save demoUStorage demoCBU.blockId
              (dictInsert [("a", JVal.leaf 0)] "_update"
                (JVal.node (demoMakeUpd demoCBU.json demoCBU.binary)))
              demoCBU.binary
          else demoUStorage) ∧
      c2.json = some (dictInsert [("a", JVal.leaf 0)] "_update"
        (JVal.node (demoMakeUpd demoCBU.json demoCBU.binary))) ∧
      (∀ k, k ≠ "_update" →
        dictFind (dictInsert [("a", JVal.leaf 0)] "_update"
          (JVal.node (demoMakeUpd demoCBU.json demoCBU.binary))) k
          = dictFind [("a", JVal.leaf 0)] k) ∧
      dictFind (dictInsert [("a", JVal.leaf 0)] "_update"
        (JVal.node (demoMakeUpd demoCBU.json demoCBU.binary))) "_update"
        = some (JVal.node (demoMakeUpd demoCBU.json demoCBU.binary)) :=
  (C9_cbupdate_frame demoMakeUpd demoUStorage demoCBU true
    [("a", JVal.leaf 0)] rfl).2 (List.cons_ne_nil _ _)

/-- C10: `load_binary` projects the column name `binary`, which is not a
column of the table `create_storage` creates (the binary column is `bin`), so
every `load_binary` call fails and never returns the stored payload. -/
theorem C10_load_binary_always_fails (st : Storage) (blockId now : Nat) :
    load_binary st blockId now = Except.error "UndefinedColumn binary" := by
  simp [load_binary, load_what, loadQueryOk, storageColumns]

end StCompBlocks
